import Mathlib

/-!
Verification development for the image-processor pipeline
(`src/image_processor.py`).

The program is a small deterministic image pipeline built on PIL and
numpy.  We give a shallow embedding:

* an `Img` is a raster with a width, a height and a total pixel
  function (3 channels, 8-bit values as `ℕ`);
* numeric code (`find_perspective_coeffs`, `resize_cover`,
  `apply_multiply_blend`) is translated over exact rationals `ℚ`,
  with the `astype(np.uint8)` truncation written as `/ 255 % 256`
  over `ℕ`;
* `np.linalg.solve` is modelled exactly: it fails (raises
  `LinAlgError`) precisely on a singular matrix, and otherwise returns
  the unique solution, written with the cramer adjugate form so that the
  definition stays computable;
* the resampling kernels of PIL (`resize` with LANCZOS, `transform`
  with BICUBIC) produce pixel values we make no claim about: they are
  supplied by an abstract `Backend` whose operations fix only the
  output dimensions, which is all the code itself guarantees;
* the orchestrator `process_image` is modelled over a `RunEnv` giving,
  for each of the three template files and for the input file, the
  image it holds (`none` = missing/unreadable), and it returns the
  `(success, output_files, error_message)` triple together with the
  trace of file paths written and deleted.
-/

/-- A raster image: fixed dimensions, 3 channels, 8-bit samples.
The pixel function is total; only indices `i < w`, `j < h` are
meaningful. -/
structure Img where
  w : ℕ
  h : ℕ
  px : ℕ → ℕ → Fin 3 → ℕ

/-- A color, one 8-bit value per RGB channel. -/
def whiteColor : Fin 3 → ℕ := fun _ => 255

/-- The fluorescent green `(57, 255, 20)` of `create_bordered_image`. -/
def fluorescent_green : Fin 3 → ℕ := ![57, 255, 20]

/-- `Image.new("RGB", (w, h), color)`: a constant-color image. -/
def newImg (w h : ℕ) (color : Fin 3 → ℕ) : Img :=
  ⟨w, h, fun _ _ c => color c⟩

/-- `canvas.paste(img, (x, y))`: the canvas keeps its dimensions; inside
the pasted box the pixels come from `img`, elsewhere from the canvas. -/
def paste (canvas img : Img) (x y : ℕ) : Img :=
  ⟨canvas.w, canvas.h, fun i j c =>
    if x ≤ i ∧ i < x + img.w ∧ y ≤ j ∧ j < y + img.h then
      img.px (i - x) (j - y) c
    else canvas.px i j c⟩

/-- `img.crop((left, top, right, bottom))`: PIL always returns an image
of exactly `(right - left) × (bottom - top)` pixels; any part of the
box outside the source is filled with black. -/
def crop (img : Img) (left top right bottom : ℤ) : Img :=
  ⟨(right - left).toNat, (bottom - top).toNat, fun i j c =>
    let x : ℤ := left + i
    let y : ℤ := top + j
    if 0 ≤ x ∧ x < img.w ∧ 0 ≤ y ∧ y < img.h then
      img.px x.toNat y.toNat c
    else 0⟩

/-- The resampling kernels of PIL.  `resizePx img w h` gives the pixel
content of `img.resize((w, h), LANCZOS)`; `warpPx img coeffs w h` the
content of `img.transform((w, h), PERSPECTIVE, coeffs, BICUBIC,
fillcolor=white)`.  The code guarantees nothing about these sample
values, only the output dimensions, so they are left abstract. -/
structure Backend where
  resizePx : Img → ℕ → ℕ → ℕ → ℕ → Fin 3 → ℕ
  warpPx : Img → (Fin 8 → ℚ) → ℕ → ℕ → ℕ → ℕ → Fin 3 → ℕ

/-- `img.resize((w, h), LANCZOS)`: dimensions are exactly `(w, h)`. -/
def Backend.resize (B : Backend) (img : Img) (w h : ℕ) : Img :=
  ⟨w, h, B.resizePx img w h⟩

/-- `img.transform((w, h), PERSPECTIVE, coeffs, BICUBIC, fillcolor)`:
dimensions are exactly `(w, h)`. -/
def Backend.warp (B : Backend) (img : Img) (coeffs : Fin 8 → ℚ) (w h : ℕ) : Img :=
  ⟨w, h, B.warpPx img coeffs w h⟩

/-- A backend with all resampled pixels black, used to instantiate
statements on concrete inputs. -/
def trivialBackend : Backend :=
  ⟨fun _ _ _ _ _ _ => 0, fun _ _ _ _ _ _ _ => 0⟩

/-- `apply_multiply_blend(base_img, overlay_img)`: per pixel and channel
the code computes `(base/255) * (overlay/255) * 255` and applies
`astype(np.uint8)`; in exact arithmetic that is `base * overlay / 255`
truncated, wrapped modulo `2^8` by the uint8 cast.  The numpy result
array has the shape of `base_img`. -/
def apply_multiply_blend (base_img overlay_img : Img) : Img :=
  ⟨base_img.w, base_img.h, fun i j c =>
    base_img.px i j c * overlay_img.px i j c / 255 % 256⟩

/-- The 8×8 system matrix of `find_perspective_coeffs`: the loop over
the 4 correspondences `(x, y) = (s (2i), s (2i+1))`,
`(X, Y) = (d (2i), d (2i+1))` appends the two rows
`[x, y, 1, 0, 0, 0, -X*x, -X*y]` and `[0, 0, 0, x, y, 1, -Y*x, -Y*y]`,
written out here with the loop unrolled. -/
def sysMatrix (s d : Fin 8 → ℚ) : Matrix (Fin 8) (Fin 8) ℚ :=
  Matrix.of ![
    ![s 0, s 1, 1, 0, 0, 0, -(d 0) * s 0, -(d 0) * s 1],
    ![0, 0, 0, s 0, s 1, 1, -(d 1) * s 0, -(d 1) * s 1],
    ![s 2, s 3, 1, 0, 0, 0, -(d 2) * s 2, -(d 2) * s 3],
    ![0, 0, 0, s 2, s 3, 1, -(d 3) * s 2, -(d 3) * s 3],
    ![s 4, s 5, 1, 0, 0, 0, -(d 4) * s 4, -(d 4) * s 5],
    ![0, 0, 0, s 4, s 5, 1, -(d 5) * s 4, -(d 5) * s 5],
    ![s 6, s 7, 1, 0, 0, 0, -(d 6) * s 6, -(d 6) * s 7],
    ![0, 0, 0, s 6, s 7, 1, -(d 7) * s 6, -(d 7) * s 7]]

/-- `np.linalg.solve(A, B)`: raises `LinAlgError` exactly when `A` is
singular, otherwise returns the unique solution of `A x = B`, written
with the cramer adjugate form to keep the definition computable. -/
def npLinalgSolve (A : Matrix (Fin 8) (Fin 8) ℚ) (b : Fin 8 → ℚ) :
    Option (Fin 8 → ℚ) :=
  if A.det = 0 then none else some ((A.det)⁻¹ • A.cramer b)

/-- `find_perspective_coeffs(source_corners, dest_corners)`: build the
8×8 system and the right-hand side `dest_corners`, and solve. -/
def find_perspective_coeffs (source_corners dest_corners : Fin 8 → ℚ) :
    Option (Fin 8 → ℚ) :=
  npLinalgSolve (sysMatrix source_corners dest_corners) dest_corners

/-- The four corners of an image in pixel order TL, TR, BR, BL, as the
flattened 8-vector `(0, 0, ow, 0, ow, oh, 0, oh)` built by
`apply_perspective_transform`. -/
def imgCorners (img : Img) : Fin 8 → ℚ :=
  ![0, 0, img.w, 0, img.w, img.h, 0, img.h]

/-- `apply_perspective_transform(img, target_w, target_h, dest_corners)`:
solve for the coefficients from the image corners to `dest_corners`;
on `LinAlgError` print and return `None`, otherwise return the warped
`(target_w, target_h)` image. -/
def apply_perspective_transform (B : Backend) (img : Img)
    (target_w target_h : ℕ) (dest_corners : Fin 8 → ℚ) : Option Img :=
  match find_perspective_coeffs (imgCorners img) dest_corners with
  | none => none
  | some coeffs => some (B.warp img coeffs target_w target_h)

/-- `resize_cover(img, target_w, target_h)`: scale by
`max(target_w/ow, target_h/oh)`, truncate the scaled dimensions to
integers, LANCZOS-resize, then center-crop with floor-divided offsets.
Python `int()` on the nonnegative products is the floor; Python `//`
is `Int.fdiv`. -/
def resize_cover (B : Backend) (img : Img) (target_w target_h : ℕ) : Img :=
  let scale_w : ℚ := (target_w : ℚ) / (img.w : ℚ)
  let scale_h : ℚ := (target_h : ℚ) / (img.h : ℚ)
  let scale : ℚ := max scale_w scale_h
  let new_w : ℤ := ⌊(img.w : ℚ) * scale⌋
  let new_h : ℤ := ⌊(img.h : ℚ) * scale⌋
  let img_copy := B.resize img new_w.toNat new_h.toNat
  let left : ℤ := (new_w - target_w).fdiv 2
  let top : ℤ := (new_h - target_h).fdiv 2
  crop img_copy left top (left + target_w) (top + target_h)

/-- The foreground resize of `create_multiplied_image`: if the flag is
falsy resize to `1071 × 1500`, else to `393 × 654`. -/
def resizeFg (B : Backend) (fg_img : Img) (resize_flag : Bool) : Img :=
  if resize_flag then B.resize fg_img 393 654 else B.resize fg_img 1071 1500

/-- `create_multiplied_image(fg_img, ..., dest_corners, resize_flag)`
with the template image already loaded as `base_img`: resize the
foreground, warp it to the template dimensions, paste onto a same-size
white canvas at `(0, 0)`, multiply-blend with the template.  `none`
models the `return False` taken when the warp fails; `some` carries
the composited image that the code saves. -/
def create_multiplied_image (B : Backend) (fg_img base_img : Img)
    (dest_corners : Fin 8 → ℚ) (resize_flag : Bool) : Option Img :=
  match apply_perspective_transform B (resizeFg B fg_img resize_flag)
      base_img.w base_img.h dest_corners with
  | none => none
  | some fg_perspectived =>
    some (apply_multiply_blend base_img
      (paste (newImg base_img.w base_img.h whiteColor) fg_perspectived 0 0))

/-- `create_bordered_image(fg_img, ...)`: a `3900 × 5700` white canvas,
a centered `3660 × 5460` fluorescent-green box, and the foreground
cover-resized to `3567 × 5374` pasted centered on top.  Returns the
pair (full bordered canvas, centered artwork), the two images the code
saves as `print.png` and `output.png`. -/
def create_bordered_image (B : Backend) (fg_img : Img) : Img × Img :=
  let canvas_w : ℕ := 3900
  let canvas_h : ℕ := 5700
  let canvas := newImg canvas_w canvas_h whiteColor
  let box1_w : ℕ := 3660
  let box1_h : ℕ := 5460
  let box1 := newImg box1_w box1_h fluorescent_green
  let box1_x : ℕ := (canvas_w - box1_w) / 2
  let box1_y : ℕ := (canvas_h - box1_h) / 2
  let canvas1 := paste canvas box1 box1_x box1_y
  let box2_w : ℕ := 3567
  let box2_h : ℕ := 5374
  let img_final := resize_cover B fg_img box2_w box2_h
  let box2_x : ℕ := (canvas_w - box2_w) / 2
  let box2_y : ℕ := (canvas_h - box2_h) / 2
  let canvas2 := paste canvas1 img_final box2_x box2_y
  (canvas2, img_final)

/-- A file path as `os.path.join(dir, name)` produces it: a directory
part and a file name. -/
structure FPath where
  dir : String
  name : String
deriving DecidableEq

/-- The string form of a joined path, as it appears in error messages. -/
def pathJoin (d n : String) : String := d ++ "/" ++ n

/-- The file-system environment a run of `process_image` sees: the
image stored at each of the three template paths and at the input
path, `none` meaning the file is missing (or, for the input,
unreadable). -/
structure RunEnv where
  template1 : Option Img
  template2 : Option Img
  template3 : Option Img
  input : Option Img

/-- The observable outcome of `process_image`: the returned triple
`(success, output_files, error_message)` plus the trace of paths
written and deleted during the run. -/
structure RunResult where
  ok : Bool
  outputs : List FPath
  error : String
  writes : List FPath
  deletes : List FPath
deriving DecidableEq

/-- Destination corners for the `show.png` template. -/
def DEST_COORDINATES : Fin 8 → ℚ := ![-322, -320, 650, -320, 670, 975, -370, 985]

/-- Destination corners for the `show2.jpg` template. -/
def DEST_COORDINATES2 : Fin 8 → ℚ := ![-196, -115, 165, -178, 170, 498, -195, 519]

/-- Destination corners for the `show3.png` template. -/
def DEST_COORDINATES3 : Fin 8 → ℚ := ![-415, -529, 695, -519, 718, 955, -495, 960]

/-- `process_image(input_path, output_folder, script_dir)`.  The
template existence loop checks `show.png`, `show2.jpg`, `show3.png`
under `script_dir` in order and fails on the first missing one; then
the input image is opened; then `create_bordered_image` writes
`output.png` and `print.png` under `output_folder` (therefore the
intermediate-file existence check on `output.png` succeeds and the
centered artwork is loaded back); then the three composites run in
sequence, each appending `output_folder/showN.png` to the outputs on
success; finally `output.png` is deleted and the run succeeds exactly
when the output list is nonempty. -/
def process_image (B : Backend) (env : RunEnv)
    (output_folder script_dir : String) : RunResult :=
  match env.template1, env.template2, env.template3 with
  | none, _, _ =>
    ⟨false, [], "Missing template file: " ++ pathJoin script_dir "show.png", [], []⟩
  | some _, none, _ =>
    ⟨false, [], "Missing template file: " ++ pathJoin script_dir "show2.jpg", [], []⟩
  | some _, some _, none =>
    ⟨false, [], "Missing template file: " ++ pathJoin script_dir "show3.png", [], []⟩
  | some t1, some t2, some t3 =>
    match env.input with
    | none => ⟨false, [], "Error opening image", [], []⟩
    | some fg_img =>
      let centered_artwork := (create_bordered_image B fg_img).2
      let r1 := create_multiplied_image B centered_artwork t1 DEST_COORDINATES false
      let r2 := create_multiplied_image B centered_artwork t2 DEST_COORDINATES2 true
      let r3 := create_multiplied_image B centered_artwork t3 DEST_COORDINATES3 false
      let outs : List FPath :=
        (if r1.isSome then [⟨output_folder, "show.png"⟩] else []) ++
        (if r2.isSome then [⟨output_folder, "show2.png"⟩] else []) ++
        (if r3.isSome then [⟨output_folder, "show3.png"⟩] else [])
      let writes : List FPath :=
        [⟨output_folder, "output.png"⟩, ⟨output_folder, "print.png"⟩] ++ outs
      if outs.isEmpty then
        ⟨false, [], "Failed to create any output images", writes,
          [⟨output_folder, "output.png"⟩]⟩
      else
        ⟨true, outs, "", writes, [⟨output_folder, "output.png"⟩]⟩

/-- The three template file paths `process_image` requires, under the
script directory (lines 271-273 of the source). -/
def templatePaths (script_dir : String) : List FPath :=
  [⟨script_dir, "show.png"⟩, ⟨script_dir, "show2.jpg"⟩, ⟨script_dir, "show3.png"⟩]

/-- The simplified composite stated by claim C10: identical to
`create_multiplied_image` except that the warped foreground is blended
with the template directly, without the intermediate same-size white
canvas and the paste at `(0, 0)`. -/
def create_multiplied_image_direct (B : Backend) (fg_img base_img : Img)
    (dest_corners : Fin 8 → ℚ) (resize_flag : Bool) : Option Img :=
  match apply_perspective_transform B (resizeFg B fg_img resize_flag)
      base_img.w base_img.h dest_corners with
  | none => none
  | some fg_perspectived => some (apply_multiply_blend base_img fg_perspectived)

/-- The four destination points `(d 0, d 1) … (d 6, d 7)` all lie on a
single line `p * X + q * Y = r` with `(p, q) ≠ (0, 0)`. -/
def collinearDest (d : Fin 8 → ℚ) : Prop :=
  ∃ p q r : ℚ, (p ≠ 0 ∨ q ≠ 0) ∧
    p * d 0 + q * d 1 = r ∧ p * d 2 + q * d 3 = r ∧
    p * d 4 + q * d 5 = r ∧ p * d 6 + q * d 7 = r

/-- A concrete `1 × 1` test image with all samples equal to `7`. -/
def testImgA : Img := ⟨1, 1, fun _ _ _ => 7⟩

/-- A concrete `1 × 1` pure-white image. -/
def testWhite : Img := ⟨1, 1, fun _ _ _ => 255⟩

/-- A concrete `5 × 4` black template image. -/
def testBase : Img := ⟨5, 4, fun _ _ _ => 0⟩

/-- A fully degenerate destination: all four corner points equal. -/
def zeroDest : Fin 8 → ℚ := fun _ => 0

/-- A destination with one duplicated corner point: TL and TR both map
to `(0, 0)`, while BR maps to `(1, 0)` and BL to `(0, 1)`. -/
def dupDest : Fin 8 → ℚ := ![0, 0, 0, 0, 1, 0, 0, 1]

/-- A concrete environment in which all three templates and the input
image are present. -/
def envAll : RunEnv := ⟨some testBase, some testBase, some testBase, some testImgA⟩

/-! ### Helper lemmas: evaluating 8-vectors and the system matrix -/

theorem vec8_val0 {α : Type} (a b c d e f g h : α) :
    (![a, b, c, d, e, f, g, h] : Fin 8 → α) 0 = a := rfl

theorem vec8_val1 {α : Type} (a b c d e f g h : α) :
    (![a, b, c, d, e, f, g, h] : Fin 8 → α) 1 = b := rfl

theorem vec8_val2 {α : Type} (a b c d e f g h : α) :
    (![a, b, c, d, e, f, g, h] : Fin 8 → α) 2 = c := rfl

theorem vec8_val3 {α : Type} (a b c d e f g h : α) :
    (![a, b, c, d, e, f, g, h] : Fin 8 → α) 3 = d := rfl

theorem vec8_val4 {α : Type} (a b c d e f g h : α) :
    (![a, b, c, d, e, f, g, h] : Fin 8 → α) 4 = e := rfl

theorem vec8_val5 {α : Type} (a b c d e f g h : α) :
    (![a, b, c, d, e, f, g, h] : Fin 8 → α) 5 = f := rfl

theorem vec8_val6 {α : Type} (a b c d e f g h : α) :
    (![a, b, c, d, e, f, g, h] : Fin 8 → α) 6 = g := rfl

theorem vec8_val7 {α : Type} (a b c d e f g h : α) :
    (![a, b, c, d, e, f, g, h] : Fin 8 → α) 7 = h := rfl

/-- Componentwise expansion of the product of the system matrix with a
vector of candidate coefficients. -/
theorem sysMatrix_mulVec (s d v : Fin 8 → ℚ) (k : Fin 8) :
    (sysMatrix s d).mulVec v k = ![
      s 0 * v 0 + s 1 * v 1 + v 2 - d 0 * s 0 * v 6 - d 0 * s 1 * v 7,
      s 0 * v 3 + s 1 * v 4 + v 5 - d 1 * s 0 * v 6 - d 1 * s 1 * v 7,
      s 2 * v 0 + s 3 * v 1 + v 2 - d 2 * s 2 * v 6 - d 2 * s 3 * v 7,
      s 2 * v 3 + s 3 * v 4 + v 5 - d 3 * s 2 * v 6 - d 3 * s 3 * v 7,
      s 4 * v 0 + s 5 * v 1 + v 2 - d 4 * s 4 * v 6 - d 4 * s 5 * v 7,
      s 4 * v 3 + s 5 * v 4 + v 5 - d 5 * s 4 * v 6 - d 5 * s 5 * v 7,
      s 6 * v 0 + s 7 * v 1 + v 2 - d 6 * s 6 * v 6 - d 6 * s 7 * v 7,
      s 6 * v 3 + s 7 * v 4 + v 5 - d 7 * s 6 * v 6 - d 7 * s 7 * v 7] k := by
  fin_cases k <;>
    · simp only [sysMatrix, Matrix.mulVec, Matrix.dotProduct, Fin.sum_univ_eight,
        Matrix.of_apply, Fin.isValue, Fin.zero_eta, Fin.mk_one,
        vec8_val0, vec8_val1, vec8_val2, vec8_val3, vec8_val4, vec8_val5, vec8_val6, vec8_val7,
        Matrix.cons_val_zero, Matrix.cons_val_one, Matrix.head_cons, Matrix.cons_val_succ']
      ring

/-- A square rational matrix with only the zero vector in its kernel has
a nonzero determinant. -/
theorem det_ne_zero_of_trivial_ker {A : Matrix (Fin 8) (Fin 8) ℚ}
    (h : ∀ v, A.mulVec v = 0 → v = 0) : A.det ≠ 0 := by
  intro hd
  obtain ⟨v, hv, hva⟩ := Matrix.exists_mulVec_eq_zero_iff.mpr hd
  exact hv (h v hva)

/-- If the kernel is trivial and `c` solves the system, the modelled
`np.linalg.solve` returns exactly `c`. -/
theorem npLinalgSolve_eq_of_mulVec {A : Matrix (Fin 8) (Fin 8) ℚ} {b c : Fin 8 → ℚ}
    (hker : ∀ v, A.mulVec v = 0 → v = 0) (hc : A.mulVec c = b) :
    npLinalgSolve A b = some c := by
  have hdet : A.det ≠ 0 := det_ne_zero_of_trivial_ker hker
  unfold npLinalgSolve
  rw [if_neg hdet]
  have h1 : A.mulVec ((A.det)⁻¹ • A.cramer b) = b := by
    rw [Matrix.mulVec_smul, Matrix.mulVec_cramer, smul_smul,
      inv_mul_cancel₀ hdet, one_smul]
  have h2 : A.mulVec ((A.det)⁻¹ • A.cramer b - c) = 0 := by
    rw [Matrix.mulVec_sub, h1, hc, sub_self]
  rw [sub_eq_zero.mp (hker _ h2)]

/-- The modelled `np.linalg.solve` raises (returns `none`) on a
singular matrix. -/
theorem npLinalgSolve_none {A : Matrix (Fin 8) (Fin 8) ℚ} (b : Fin 8 → ℚ)
    (hdet : A.det = 0) : npLinalgSolve A b = none := by
  unfold npLinalgSolve
  rw [if_pos hdet]

/-! ### The identity correspondences -/

/-- The flattened corner vector `(0,0), (W,0), (W,H), (0,H)` of a
`W × H` rectangle, in TL, TR, BR, BL order. -/
def identCorners (W H : ℚ) : Fin 8 → ℚ := ![0, 0, W, 0, W, H, 0, H]

/-- The identity-correspondence system has a trivial kernel whenever
the rectangle is nondegenerate. -/
theorem ident_trivial_ker (W H : ℚ) (hW : W ≠ 0) (hH : H ≠ 0) :
    ∀ v, (sysMatrix (identCorners W H) (identCorners W H)).mulVec v = 0 → v = 0 := by
  intro v hv
  have e0 : v 2 = 0 := by
    have h := congrFun hv 0
    rw [sysMatrix_mulVec] at h
    simp only [identCorners, vec8_val0, vec8_val1, vec8_val2, vec8_val3,
      vec8_val4, vec8_val5, vec8_val6, vec8_val7, Pi.zero_apply] at h
    linear_combination h
  have e1 : v 5 = 0 := by
    have h := congrFun hv 1
    rw [sysMatrix_mulVec] at h
    simp only [identCorners, vec8_val0, vec8_val1, vec8_val2, vec8_val3,
      vec8_val4, vec8_val5, vec8_val6, vec8_val7, Pi.zero_apply] at h
    linear_combination h
  have e2 : W * v 0 + v 2 - W * W * v 6 = 0 := by
    have h := congrFun hv 2
    rw [sysMatrix_mulVec] at h
    simp only [identCorners, vec8_val0, vec8_val1, vec8_val2, vec8_val3,
      vec8_val4, vec8_val5, vec8_val6, vec8_val7, Pi.zero_apply] at h
    linear_combination h
  have e3 : W * v 3 + v 5 = 0 := by
    have h := congrFun hv 3
    rw [sysMatrix_mulVec] at h
    simp only [identCorners, vec8_val0, vec8_val1, vec8_val2, vec8_val3,
      vec8_val4, vec8_val5, vec8_val6, vec8_val7, Pi.zero_apply] at h
    linear_combination h
  have e4 : W * v 0 + H * v 1 + v 2 - W * W * v 6 - W * H * v 7 = 0 := by
    have h := congrFun hv 4
    rw [sysMatrix_mulVec] at h
    simp only [identCorners, vec8_val0, vec8_val1, vec8_val2, vec8_val3,
      vec8_val4, vec8_val5, vec8_val6, vec8_val7, Pi.zero_apply] at h
    linear_combination h
  have e5 : W * v 3 + H * v 4 + v 5 - H * W * v 6 - H * H * v 7 = 0 := by
    have h := congrFun hv 5
    rw [sysMatrix_mulVec] at h
    simp only [identCorners, vec8_val0, vec8_val1, vec8_val2, vec8_val3,
      vec8_val4, vec8_val5, vec8_val6, vec8_val7, Pi.zero_apply] at h
    linear_combination h
  have e6 : H * v 1 + v 2 = 0 := by
    have h := congrFun hv 6
    rw [sysMatrix_mulVec] at h
    simp only [identCorners, vec8_val0, vec8_val1, vec8_val2, vec8_val3,
      vec8_val4, vec8_val5, vec8_val6, vec8_val7, Pi.zero_apply] at h
    linear_combination h
  have e7 : H * v 4 + v 5 - H * H * v 7 = 0 := by
    have h := congrFun hv 7
    rw [sysMatrix_mulVec] at h
    simp only [identCorners, vec8_val0, vec8_val1, vec8_val2, vec8_val3,
      vec8_val4, vec8_val5, vec8_val6, vec8_val7, Pi.zero_apply] at h
    linear_combination h
  have hv1 : v 1 = 0 := by
    have hm : H * v 1 = 0 := by linear_combination e6 - e0
    exact (mul_eq_zero.mp hm).resolve_left hH
  have hv3 : v 3 = 0 := by
    have hm : W * v 3 = 0 := by linear_combination e3 - e1
    exact (mul_eq_zero.mp hm).resolve_left hW
  have hv7 : v 7 = 0 := by
    have hm : W * (H * v 7) = 0 := by linear_combination H * hv1 - e4 + e2
    exact (mul_eq_zero.mp ((mul_eq_zero.mp hm).resolve_left hW)).resolve_left hH
  have hv4 : v 4 = 0 := by
    have hm : H * v 4 = 0 := by linear_combination e7 - e1 + H * H * hv7
    exact (mul_eq_zero.mp hm).resolve_left hH
  have hv6 : v 6 = 0 := by
    have hm : H * (W * v 6) = 0 := by
      linear_combination W * hv3 + H * hv4 + e1 - H * H * hv7 - e5
    exact (mul_eq_zero.mp ((mul_eq_zero.mp hm).resolve_left hH)).resolve_left hW
  have hv0 : v 0 = 0 := by
    have hm : W * v 0 = 0 := by linear_combination e2 - e0 + W * W * hv6
    exact (mul_eq_zero.mp hm).resolve_left hW
  funext k
  fin_cases k <;> simp only [Pi.zero_apply] <;> assumption

/-- The identity coefficient vector solves the identity-correspondence
system. -/
theorem ident_mulVec_id (W H : ℚ) :
    (sysMatrix (identCorners W H) (identCorners W H)).mulVec
      ![1, 0, 0, 0, 1, 0, 0, 0] = identCorners W H := by
  funext k
  rw [sysMatrix_mulVec]
  fin_cases k <;>
    · simp only [identCorners, vec8_val0, vec8_val1, vec8_val2, vec8_val3,
        vec8_val4, vec8_val5, vec8_val6, vec8_val7]
      ring

/-- Shared conclusion: the solver returns the identity coefficients on
the identity correspondences of a nondegenerate rectangle. -/
theorem identity_solve (W H : ℚ) (hW : W ≠ 0) (hH : H ≠ 0) :
    find_perspective_coeffs (identCorners W H) (identCorners W H) =
      some ![1, 0, 0, 0, 1, 0, 0, 0] :=
  npLinalgSolve_eq_of_mulVec (ident_trivial_ker W H hW hH) (ident_mulVec_id W H)

/-- The source-corner vector of any image is the rectangle corner
vector of its dimensions. -/
theorem imgCorners_eq (img : Img) :
    imgCorners img = identCorners (img.w : ℚ) (img.h : ℚ) := rfl

/-- Dimensions of a crop: PIL returns exactly the requested box. -/
theorem crop_dims (img : Img) (l t r b : ℤ) :
    (crop img l t r b).w = (r - l).toNat ∧ (crop img l t r b).h = (b - t).toNat :=
  ⟨rfl, rfl⟩

/-- The cover resize-and-crop always produces exactly the target
dimensions, because the final crop box is `target` wide and high by
construction. -/
theorem resize_cover_dims (B : Backend) (img : Img) (tw th : ℕ) :
    (resize_cover B img tw th).w = tw ∧ (resize_cover B img tw th).h = th := by
  unfold resize_cover
  refine ⟨?_, ?_⟩ <;>
    · simp only [crop]
      omega

/-! ### Claim theorems -/

/-- C1: for every positive width `W` and height `H`, the Geometry
Solver (`find_perspective_coeffs`), given the 4 identity
correspondences `(0,0) → (0,0)`, `(W,0) → (W,0)`, `(W,H) → (W,H)`,
`(0,H) → (0,H)`, builds the 8×8 system with rows
`[x, y, 1, 0, 0, 0, -X*x, -X*y]` targeting `X` and
`[0, 0, 0, x, y, 1, -Y*x, -Y*y]` targeting `Y` (this is the
definition of `sysMatrix`, which `find_perspective_coeffs` solves
against the right-hand side `dest_corners`), and solving returns
exactly the identity coefficients
`(a, b, c, d, e, f, g, h) = (1, 0, 0, 0, 1, 0, 0, 0)`. -/
theorem claim_C1_identity_coefficients (W H : ℚ) (hW : 0 < W) (hH : 0 < H) :
    find_perspective_coeffs (identCorners W H) (identCorners W H) =
      some ![1, 0, 0, 0, 1, 0, 0, 0] :=
  identity_solve W H (ne_of_gt hW) (ne_of_gt hH)

/-- Witness for C1 at the concrete rectangle `2 × 3`. -/
theorem claim_C1_identity_coefficients_witness :
    find_perspective_coeffs (identCorners 2 3) (identCorners 2 3) =
      some ![1, 0, 0, 0, 1, 0, 0, 0] :=
  claim_C1_identity_coefficients 2 3 (by norm_num) (by norm_num)

/-- C2: for every 3-channel 8-bit image `A` and every pure-white image
of the same dimensions, the multiply blend applied in either operand
order returns `A` unchanged: the dimensions agree with those of `A`
and every pixel and channel keeps the original value of `A`. -/
theorem claim_C2_white_identity (A Wimg : Img)
    (h8 : ∀ i j c, A.px i j c < 256)
    (hw : Wimg.w = A.w) (hh : Wimg.h = A.h)
    (hwhite : ∀ i j c, Wimg.px i j c = 255) :
    (apply_multiply_blend A Wimg).w = A.w ∧
    (apply_multiply_blend A Wimg).h = A.h ∧
    (∀ i j c, (apply_multiply_blend A Wimg).px i j c = A.px i j c) ∧
    (apply_multiply_blend Wimg A).w = A.w ∧
    (apply_multiply_blend Wimg A).h = A.h ∧
    (∀ i j c, (apply_multiply_blend Wimg A).px i j c = A.px i j c) := by
  refine ⟨rfl, rfl, ?_, hw, hh, ?_⟩
  · intro i j c
    show A.px i j c * Wimg.px i j c / 255 % 256 = A.px i j c
    rw [hwhite i j c]
    rw [Nat.mul_div_cancel _ (by norm_num : 0 < 255)]
    exact Nat.mod_eq_of_lt (h8 i j c)
  · intro i j c
    show Wimg.px i j c * A.px i j c / 255 % 256 = A.px i j c
    rw [hwhite i j c]
    rw [Nat.mul_comm, Nat.mul_div_cancel _ (by norm_num : 0 < 255)]
    exact Nat.mod_eq_of_lt (h8 i j c)

/-- Witness for C2 on concrete `1 × 1` images. -/
theorem claim_C2_white_identity_witness :
    (apply_multiply_blend testImgA testWhite).w = testImgA.w ∧
    (apply_multiply_blend testImgA testWhite).h = testImgA.h ∧
    (∀ i j c, (apply_multiply_blend testImgA testWhite).px i j c = testImgA.px i j c) ∧
    (apply_multiply_blend testWhite testImgA).w = testImgA.w ∧
    (apply_multiply_blend testWhite testImgA).h = testImgA.h ∧
    (∀ i j c, (apply_multiply_blend testWhite testImgA).px i j c = testImgA.px i j c) :=
  claim_C2_white_identity testImgA testWhite
    (fun _ _ _ => by norm_num [testImgA]) rfl rfl (fun _ _ _ => rfl)

/-- C3: for every input image with positive dimensions and every
positive target width and height, `resize_cover` returns an image of
exactly the target dimensions, despite the integer truncation of the
scaled dimensions before the center crop. -/
theorem claim_C3_resize_cover_exact (B : Backend) (img : Img) (tw th : ℕ)
    (hw : 0 < img.w) (hh : 0 < img.h) (htw : 0 < tw) (hth : 0 < th) :
    (resize_cover B img tw th).w = tw ∧ (resize_cover B img tw th).h = th :=
  resize_cover_dims B img tw th

/-- Witness for C3 on a concrete `2 × 3` image and `4 × 5` target. -/
theorem claim_C3_resize_cover_exact_witness :
    (resize_cover trivialBackend ⟨2, 3, fun _ _ _ => 0⟩ 4 5).w = 4 ∧
    (resize_cover trivialBackend ⟨2, 3, fun _ _ _ => 0⟩ 4 5).h = 5 :=
  claim_C3_resize_cover_exact trivialBackend ⟨2, 3, fun _ _ _ => 0⟩ 4 5
    (by norm_num) (by norm_num) (by norm_num) (by norm_num)

/-! ### Paste and composite helpers -/

/-- Inside the pasted rectangle the pasted image shows through. -/
theorem paste_px_in (canvas img : Img) (x y i j : ℕ) (c : Fin 3)
    (hi : i < img.w) (hj : j < img.h) :
    (paste canvas img x y).px (x + i) (y + j) c = img.px i j c := by
  show (if _ then _ else _) = _
  rw [if_pos ⟨Nat.le_add_right x i, by omega, Nat.le_add_right y j, by omega⟩]
  rw [Nat.add_sub_cancel_left, Nat.add_sub_cancel_left]

/-- Outside the pasted rectangle the canvas shows through. -/
theorem paste_px_out (canvas img : Img) (x y i j : ℕ) (c : Fin 3)
    (h : ¬(x ≤ i ∧ i < x + img.w ∧ y ≤ j ∧ j < y + img.h)) :
    (paste canvas img x y).px i j c = canvas.px i j c := by
  show (if _ then _ else _) = _
  rw [if_neg h]

/-- `create_bordered_image` zeta-reduced: the bordered canvas is the
white canvas with the green box pasted at `(120, 120)` and the
cover-resized artwork pasted at `(166, 163)`; the second component is
the cover-resized artwork itself. -/
theorem create_bordered_image_eq (B : Backend) (fg_img : Img) :
    create_bordered_image B fg_img =
      (paste (paste (newImg 3900 5700 whiteColor) (newImg 3660 5460 fluorescent_green) 120 120)
         (resize_cover B fg_img 3567 5374) 166 163,
       resize_cover B fg_img 3567 5374) := rfl

/-- Reduction of the transform when the solver succeeds. -/
theorem apply_perspective_transform_eq_of_solve {B : Backend} {img : Img}
    {tw th : ℕ} {dest coeffs : Fin 8 → ℚ}
    (h : find_perspective_coeffs (imgCorners img) dest = some coeffs) :
    apply_perspective_transform B img tw th dest = some (B.warp img coeffs tw th) := by
  unfold apply_perspective_transform
  rw [h]

/-- Reduction of the transform when the solver raises. -/
theorem apply_perspective_transform_none_of_solve {B : Backend} {img : Img}
    {tw th : ℕ} {dest : Fin 8 → ℚ}
    (h : find_perspective_coeffs (imgCorners img) dest = none) :
    apply_perspective_transform B img tw th dest = none := by
  unfold apply_perspective_transform
  rw [h]

/-- Reduction of the composite when the warp succeeds. -/
theorem create_multiplied_image_eq_of_transform {B : Backend} {fg_img base_img : Img}
    {dest : Fin 8 → ℚ} {flag : Bool} {fgp : Img}
    (h : apply_perspective_transform B (resizeFg B fg_img flag)
          base_img.w base_img.h dest = some fgp) :
    create_multiplied_image B fg_img base_img dest flag =
      some (apply_multiply_blend base_img
        (paste (newImg base_img.w base_img.h whiteColor) fgp 0 0)) := by
  unfold create_multiplied_image
  rw [h]

/-- Reduction of the composite when the warp fails. -/
theorem create_multiplied_image_none_of_transform {B : Backend} {fg_img base_img : Img}
    {dest : Fin 8 → ℚ} {flag : Bool}
    (h : apply_perspective_transform B (resizeFg B fg_img flag)
          base_img.w base_img.h dest = none) :
    create_multiplied_image B fg_img base_img dest flag = none := by
  unfold create_multiplied_image
  rw [h]

/-- Reduction of the simplified composite when the warp succeeds. -/
theorem create_multiplied_image_direct_eq_of_transform {B : Backend} {fg_img base_img : Img}
    {dest : Fin 8 → ℚ} {flag : Bool} {fgp : Img}
    (h : apply_perspective_transform B (resizeFg B fg_img flag)
          base_img.w base_img.h dest = some fgp) :
    create_multiplied_image_direct B fg_img base_img dest flag =
      some (apply_multiply_blend base_img fgp) := by
  unfold create_multiplied_image_direct
  rw [h]

/-- Reduction of the simplified composite when the warp fails. -/
theorem create_multiplied_image_direct_none_of_transform {B : Backend} {fg_img base_img : Img}
    {dest : Fin 8 → ℚ} {flag : Bool}
    (h : apply_perspective_transform B (resizeFg B fg_img flag)
          base_img.w base_img.h dest = none) :
    create_multiplied_image_direct B fg_img base_img dest flag = none := by
  unfold create_multiplied_image_direct
  rw [h]

/-- With the falsy resize flag the foreground becomes `1071 × 1500`,
so its corner vector is the `1071 × 1500` rectangle. -/
theorem imgCorners_resizeFg_false (B : Backend) (fg_img : Img) :
    imgCorners (resizeFg B fg_img false) = identCorners 1071 1500 := by
  show identCorners ((1071 : ℕ) : ℚ) ((1500 : ℕ) : ℚ) = identCorners 1071 1500
  norm_num

/-- The solver succeeds (with identity coefficients) when the
destination corners equal the corners of the full-size resized
foreground. -/
theorem solve_ident_fullsize (B : Backend) (fg_img : Img) :
    find_perspective_coeffs (imgCorners (resizeFg B fg_img false))
      (identCorners 1071 1500) = some ![1, 0, 0, 0, 1, 0, 0, 0] := by
  rw [imgCorners_resizeFg_false]
  exact identity_solve 1071 1500 (by norm_num) (by norm_num)

/-- C4: `create_bordered_image` always produces a bordered canvas of
exactly `3900 × 5700` and a centered artwork of exactly `3567 × 5374`,
for every input image; the artwork rectangle is centered at offsets
`((3900 - 3567) / 2, (5700 - 5374) / 2)` and the green rectangle at
offsets `((3900 - 3660) / 2, (5700 - 5460) / 2)` (integer division),
each showing its own pixels there. -/
theorem claim_C4_bordered_canvas (B : Backend) (fg_img : Img) :
    (create_bordered_image B fg_img).1.w = 3900 ∧
    (create_bordered_image B fg_img).1.h = 5700 ∧
    (create_bordered_image B fg_img).2.w = 3567 ∧
    (create_bordered_image B fg_img).2.h = 5374 ∧
    (∀ i j c, i < 3567 → j < 5374 →
      (create_bordered_image B fg_img).1.px
          ((3900 - 3567) / 2 + i) ((5700 - 5374) / 2 + j) c =
        (create_bordered_image B fg_img).2.px i j c) ∧
    (∀ i j c, i < 3660 → j < 5460 →
      (i < 46 ∨ 3613 ≤ i ∨ j < 43 ∨ 5417 ≤ j) →
      (create_bordered_image B fg_img).1.px
          ((3900 - 3660) / 2 + i) ((5700 - 5460) / 2 + j) c =
        fluorescent_green c) := by
  have hart := resize_cover_dims B fg_img 3567 5374
  rw [create_bordered_image_eq]
  refine ⟨rfl, rfl, hart.1, hart.2, ?_, ?_⟩
  · intro i j c hi hj
    have h1 : (3900 - 3567) / 2 + i = 166 + i := by norm_num
    have h2 : (5700 - 5374) / 2 + j = 163 + j := by norm_num
    rw [h1, h2]
    exact paste_px_in _ _ 166 163 i j c (by omega) (by omega)
  · intro i j c hi hj hout
    have h1 : (3900 - 3660) / 2 + i = 120 + i := by norm_num
    have h2 : (5700 - 5460) / 2 + j = 120 + j := by norm_num
    rw [h1, h2]
    rw [paste_px_out _ _ 166 163 (120 + i) (120 + j) c (by
      rw [hart.1, hart.2]
      omega)]
    exact paste_px_in _ _ 120 120 i j c hi hj

/-- Witness for C4: the inner pixel equations instantiated at the
top-left corner of each rectangle on a concrete input. -/
theorem claim_C4_bordered_canvas_witness :
    (create_bordered_image trivialBackend testImgA).1.w = 3900 ∧
    (create_bordered_image trivialBackend testImgA).1.px
        ((3900 - 3567) / 2 + 0) ((5700 - 5374) / 2 + 0) 0 =
      (create_bordered_image trivialBackend testImgA).2.px 0 0 0 ∧
    (create_bordered_image trivialBackend testImgA).1.px
        ((3900 - 3660) / 2 + 0) ((5700 - 5460) / 2 + 0) 0 =
      fluorescent_green 0 := by
  obtain ⟨h1, _, _, _, h5, h6⟩ := claim_C4_bordered_canvas trivialBackend testImgA
  exact ⟨h1, h5 0 0 0 (by norm_num) (by norm_num),
    h6 0 0 0 (by norm_num) (by norm_num) (Or.inl (by norm_num))⟩

/-- C5: whenever `create_multiplied_image` succeeds, the composited
result has exactly the pixel dimensions of the loaded template
image: the warp targets the template dimensions and the multiply
blend preserves them. -/
theorem claim_C5_composite_dims (B : Backend) (fg_img base_img : Img)
    (dest : Fin 8 → ℚ) (flag : Bool) (out : Img)
    (hout : create_multiplied_image B fg_img base_img dest flag = some out) :
    out.w = base_img.w ∧ out.h = base_img.h := by
  rcases htr : apply_perspective_transform B (resizeFg B fg_img flag)
      base_img.w base_img.h dest with _ | fgp
  · rw [create_multiplied_image_none_of_transform htr] at hout
    cases hout
  · rw [create_multiplied_image_eq_of_transform htr] at hout
    cases hout
    exact ⟨rfl, rfl⟩

/-- Witness for C5 on a concrete successful composite (identity
destination corners). -/
theorem claim_C5_composite_dims_witness :
    (apply_multiply_blend testBase
        (paste (newImg testBase.w testBase.h whiteColor)
          (trivialBackend.warp (resizeFg trivialBackend testImgA false)
            ![1, 0, 0, 0, 1, 0, 0, 0] testBase.w testBase.h) 0 0)).w = testBase.w ∧
    (apply_multiply_blend testBase
        (paste (newImg testBase.w testBase.h whiteColor)
          (trivialBackend.warp (resizeFg trivialBackend testImgA false)
            ![1, 0, 0, 0, 1, 0, 0, 0] testBase.w testBase.h) 0 0)).h = testBase.h :=
  claim_C5_composite_dims trivialBackend testImgA testBase (identCorners 1071 1500) false _
    (create_multiplied_image_eq_of_transform
      (apply_perspective_transform_eq_of_solve (solve_ident_fullsize trivialBackend testImgA)))

/-- C10: pasting the warped foreground onto a freshly created same-size
white canvas at `(0, 0)` is a no-op for the composite: the pipeline
fails exactly when the direct one does, and on success both composites
have the same dimensions and identical pixels everywhere in the range
of the template. -/
theorem claim_C10_white_canvas_noop (B : Backend) (fg_img base_img : Img)
    (dest : Fin 8 → ℚ) (flag : Bool) :
    (create_multiplied_image B fg_img base_img dest flag = none ↔
      create_multiplied_image_direct B fg_img base_img dest flag = none) ∧
    (∀ out out',
      create_multiplied_image B fg_img base_img dest flag = some out →
      create_multiplied_image_direct B fg_img base_img dest flag = some out' →
      out.w = out'.w ∧ out.h = out'.h ∧
        ∀ i j c, i < base_img.w → j < base_img.h → out.px i j c = out'.px i j c) := by
  rcases hs : find_perspective_coeffs (imgCorners (resizeFg B fg_img flag)) dest
      with _ | coeffs
  · have htr : apply_perspective_transform B (resizeFg B fg_img flag)
        base_img.w base_img.h dest = none :=
      apply_perspective_transform_none_of_solve hs
    refine ⟨?_, ?_⟩
    · rw [create_multiplied_image_none_of_transform htr,
        create_multiplied_image_direct_none_of_transform htr]
    · intro out out' hout hout'
      rw [create_multiplied_image_none_of_transform htr] at hout
      cases hout
  · have htr : apply_perspective_transform B (resizeFg B fg_img flag)
        base_img.w base_img.h dest =
        some (B.warp (resizeFg B fg_img flag) coeffs base_img.w base_img.h) :=
      apply_perspective_transform_eq_of_solve hs
    refine ⟨?_, ?_⟩
    · rw [create_multiplied_image_eq_of_transform htr,
        create_multiplied_image_direct_eq_of_transform htr]
      simp
    · intro out out' hout hout'
      rw [create_multiplied_image_eq_of_transform htr] at hout
      rw [create_multiplied_image_direct_eq_of_transform htr] at hout'
      cases hout
      cases hout'
      refine ⟨rfl, rfl, ?_⟩
      intro i j c hi hj
      have hp : (paste (newImg base_img.w base_img.h whiteColor)
          (B.warp (resizeFg B fg_img flag) coeffs base_img.w base_img.h) 0 0).px i j c =
          (B.warp (resizeFg B fg_img flag) coeffs base_img.w base_img.h).px i j c := by
        show (if _ then _ else _) = _
        rw [if_pos ⟨Nat.zero_le i,
          (by rw [Nat.zero_add]; exact hi :
            i < 0 + (B.warp (resizeFg B fg_img flag) coeffs base_img.w base_img.h).w),
          Nat.zero_le j,
          (by rw [Nat.zero_add]; exact hj :
            j < 0 + (B.warp (resizeFg B fg_img flag) coeffs base_img.w base_img.h).h)⟩]
        rw [Nat.sub_zero, Nat.sub_zero]
      show base_img.px i j c * (paste (newImg base_img.w base_img.h whiteColor)
          (B.warp (resizeFg B fg_img flag) coeffs base_img.w base_img.h) 0 0).px i j c
          / 255 % 256 =
        base_img.px i j c *
          (B.warp (resizeFg B fg_img flag) coeffs base_img.w base_img.h).px i j c
          / 255 % 256
      rw [hp]

/-- Witness for C10 on a concrete successful composite. -/
theorem claim_C10_white_canvas_noop_witness :
    (apply_multiply_blend testBase
        (paste (newImg testBase.w testBase.h whiteColor)
          (trivialBackend.warp (resizeFg trivialBackend testImgA false)
            ![1, 0, 0, 0, 1, 0, 0, 0] testBase.w testBase.h) 0 0)).px 0 0 0 =
      (apply_multiply_blend testBase
        (trivialBackend.warp (resizeFg trivialBackend testImgA false)
          ![1, 0, 0, 0, 1, 0, 0, 0] testBase.w testBase.h)).px 0 0 0 := by
  have htr : apply_perspective_transform trivialBackend
      (resizeFg trivialBackend testImgA false) testBase.w testBase.h
      (identCorners 1071 1500) =
      some (trivialBackend.warp (resizeFg trivialBackend testImgA false)
        ![1, 0, 0, 0, 1, 0, 0, 0] testBase.w testBase.h) :=
    apply_perspective_transform_eq_of_solve (solve_ident_fullsize trivialBackend testImgA)
  have h := (claim_C10_white_canvas_noop trivialBackend testImgA testBase
      (identCorners 1071 1500) false).2 _ _
    (create_multiplied_image_eq_of_transform htr)
    (create_multiplied_image_direct_eq_of_transform htr)
  exact h.2.2 0 0 0 (by norm_num [testBase]) (by norm_num [testBase])

/-! ### Degenerate destinations (claim C6) -/

/-- Collinear destination points make the 8×8 system singular whenever
the source corners form a rectangle, via the explicit left null vector
`(p, q, -p, -q, p, q, -p, -q)`. -/
theorem collinear_det_zero (w h : ℚ) (d : Fin 8 → ℚ) (hcol : collinearDest d) :
    (sysMatrix (identCorners w h) d).det = 0 := by
  obtain ⟨p, q, r, hpq, h0, h1, h2, h3⟩ := hcol
  rw [← Matrix.exists_vecMul_eq_zero_iff]
  refine ⟨![p, q, -p, -q, p, q, -p, -q], ?_, ?_⟩
  · intro hz
    rcases hpq with hp | hq
    · exact hp (by simpa using congrFun hz 0)
    · exact hq (by simpa using congrFun hz 1)
  · funext k
    fin_cases k <;>
      simp only [Matrix.vecMul, Matrix.dotProduct, Fin.sum_univ_eight, sysMatrix,
        identCorners, Matrix.of_apply, Fin.isValue, Fin.zero_eta, Fin.mk_one,
        vec8_val0, vec8_val1, vec8_val2, vec8_val3, vec8_val4, vec8_val5, vec8_val6, vec8_val7,
        Matrix.cons_val_zero, Matrix.cons_val_one, Matrix.head_cons, Matrix.cons_val_succ',
        Pi.zero_apply]
    · ring
    · ring
    · ring
    · ring
    · ring
    · ring
    · linear_combination w * h1 - w * h2
    · linear_combination h * h3 - h * h2

/-- The system for the duplicated destination `dupDest` over the
full-size `1071 × 1500` source rectangle has a trivial kernel: the
duplicated corner does not make this system singular. -/
theorem dup_trivial_ker :
    ∀ v, (sysMatrix (identCorners 1071 1500) dupDest).mulVec v = 0 → v = 0 := by
  intro v hv
  have e0 : v 2 = 0 := by
    have h := congrFun hv 0
    rw [sysMatrix_mulVec] at h
    simp only [identCorners, dupDest, vec8_val0, vec8_val1, vec8_val2, vec8_val3,
      vec8_val4, vec8_val5, vec8_val6, vec8_val7, Pi.zero_apply] at h
    linear_combination h
  have e1 : v 5 = 0 := by
    have h := congrFun hv 1
    rw [sysMatrix_mulVec] at h
    simp only [identCorners, dupDest, vec8_val0, vec8_val1, vec8_val2, vec8_val3,
      vec8_val4, vec8_val5, vec8_val6, vec8_val7, Pi.zero_apply] at h
    linear_combination h
  have e2 : 1071 * v 0 + v 2 = 0 := by
    have h := congrFun hv 2
    rw [sysMatrix_mulVec] at h
    simp only [identCorners, dupDest, vec8_val0, vec8_val1, vec8_val2, vec8_val3,
      vec8_val4, vec8_val5, vec8_val6, vec8_val7, Pi.zero_apply] at h
    linear_combination h
  have e3 : 1071 * v 3 + v 5 = 0 := by
    have h := congrFun hv 3
    rw [sysMatrix_mulVec] at h
    simp only [identCorners, dupDest, vec8_val0, vec8_val1, vec8_val2, vec8_val3,
      vec8_val4, vec8_val5, vec8_val6, vec8_val7, Pi.zero_apply] at h
    linear_combination h
  have e4 : 1071 * v 0 + 1500 * v 1 + v 2 - 1071 * v 6 - 1500 * v 7 = 0 := by
    have h := congrFun hv 4
    rw [sysMatrix_mulVec] at h
    simp only [identCorners, dupDest, vec8_val0, vec8_val1, vec8_val2, vec8_val3,
      vec8_val4, vec8_val5, vec8_val6, vec8_val7, Pi.zero_apply] at h
    linear_combination h
  have e5 : 1071 * v 3 + 1500 * v 4 + v 5 = 0 := by
    have h := congrFun hv 5
    rw [sysMatrix_mulVec] at h
    simp only [identCorners, dupDest, vec8_val0, vec8_val1, vec8_val2, vec8_val3,
      vec8_val4, vec8_val5, vec8_val6, vec8_val7, Pi.zero_apply] at h
    linear_combination h
  have e6 : 1500 * v 1 + v 2 = 0 := by
    have h := congrFun hv 6
    rw [sysMatrix_mulVec] at h
    simp only [identCorners, dupDest, vec8_val0, vec8_val1, vec8_val2, vec8_val3,
      vec8_val4, vec8_val5, vec8_val6, vec8_val7, Pi.zero_apply] at h
    linear_combination h
  have e7 : 1500 * v 4 + v 5 - 1500 * v 7 = 0 := by
    have h := congrFun hv 7
    rw [sysMatrix_mulVec] at h
    simp only [identCorners, dupDest, vec8_val0, vec8_val1, vec8_val2, vec8_val3,
      vec8_val4, vec8_val5, vec8_val6, vec8_val7, Pi.zero_apply] at h
    linear_combination h
  have hv0 : v 0 = 0 := by linarith
  have hv1 : v 1 = 0 := by linarith
  have hv3 : v 3 = 0 := by linarith
  have hv4 : v 4 = 0 := by linarith
  have hv7 : v 7 = 0 := by linarith
  have hv6 : v 6 = 0 := by linarith
  funext k
  fin_cases k <;> simp only [Pi.zero_apply] <;> assumption

/-- The coefficient vector `(0,0,0,0,0,0,0,-1/1500)` solves the
duplicated-destination system exactly. -/
theorem dup_mulVec_sol :
    (sysMatrix (identCorners 1071 1500) dupDest).mulVec
      ![0, 0, 0, 0, 0, 0, 0, -(1 / 1500)] = dupDest := by
  funext k
  rw [sysMatrix_mulVec]
  fin_cases k <;>
    · simp only [identCorners, dupDest, vec8_val0, vec8_val1, vec8_val2, vec8_val3,
        vec8_val4, vec8_val5, vec8_val6, vec8_val7]
      norm_num

/-- The solver succeeds on `dupDest` from the full-size source
rectangle, although two of the destination points coincide. -/
theorem dup_solve (B : Backend) (fg_img : Img) :
    find_perspective_coeffs (imgCorners (resizeFg B fg_img false)) dupDest =
      some ![0, 0, 0, 0, 0, 0, 0, -(1 / 1500)] := by
  rw [imgCorners_resizeFg_false]
  exact npLinalgSolve_eq_of_mulVec dup_trivial_ker dup_mulVec_sol

/-- C6 counterexample: `dupDest` has two coinciding destination corner
points (a degenerate quadrilateral in the sense of the claim), yet the
8×8 system is nonsingular, the solver does not raise, and
`create_multiplied_image` succeeds instead of reporting failure. -/
theorem claim_C6_counterexample :
    (dupDest 0 = dupDest 2 ∧ dupDest 1 = dupDest 3) ∧
    find_perspective_coeffs (imgCorners (resizeFg trivialBackend testImgA false)) dupDest =
      some ![0, 0, 0, 0, 0, 0, 0, -(1 / 1500)] ∧
    create_multiplied_image trivialBackend testImgA testBase dupDest false ≠ none := by
  refine ⟨⟨rfl, rfl⟩, dup_solve trivialBackend testImgA, ?_⟩
  rw [create_multiplied_image_eq_of_transform
    (apply_perspective_transform_eq_of_solve (dup_solve trivialBackend testImgA))]
  simp

/-- C6 amended: for every image and every destination corner set that
makes the 8×8 system singular — in particular every collinear corner
set, though not every duplicated corner — the solve raises
(`LinAlgError`), `apply_perspective_transform` catches it and returns
no image, and `create_multiplied_image` reports failure for that one
composite. -/
theorem claim_C6_amended_degenerate (B : Backend) (fg_img base_img : Img)
    (dest : Fin 8 → ℚ) (flag : Bool)
    (hdeg : collinearDest dest ∨
      (sysMatrix (imgCorners (resizeFg B fg_img flag)) dest).det = 0) :
    find_perspective_coeffs (imgCorners (resizeFg B fg_img flag)) dest = none ∧
    apply_perspective_transform B (resizeFg B fg_img flag)
      base_img.w base_img.h dest = none ∧
    create_multiplied_image B fg_img base_img dest flag = none := by
  have hdet : (sysMatrix (imgCorners (resizeFg B fg_img flag)) dest).det = 0 := by
    rcases hdeg with hcol | hdet
    · rw [imgCorners_eq]
      exact collinear_det_zero _ _ dest hcol
    · exact hdet
  have hsolve : find_perspective_coeffs (imgCorners (resizeFg B fg_img flag)) dest = none :=
    npLinalgSolve_none _ hdet
  exact ⟨hsolve, apply_perspective_transform_none_of_solve hsolve,
    create_multiplied_image_none_of_transform (apply_perspective_transform_none_of_solve hsolve)⟩

/-- Witness for the amended C6 on the fully degenerate all-zero
destination (all four points coincide on the line `X = 0`). -/
theorem claim_C6_amended_degenerate_witness :
    create_multiplied_image trivialBackend testImgA testBase zeroDest false = none :=
  (claim_C6_amended_degenerate trivialBackend testImgA testBase zeroDest false
    (Or.inl ⟨1, 0, 0, Or.inl one_ne_zero,
      by norm_num [zeroDest], by norm_num [zeroDest],
      by norm_num [zeroDest], by norm_num [zeroDest]⟩)).2.2

/-! ### Orchestrator claims -/

/-- C7: with all three templates present and a readable input, all
three template composites are attempted independently: each output
path appears in the returned list exactly when its own composite
succeeded (regardless of the others), the run reports success exactly
when at least one composite succeeded, and when all three fail the
error message is the aggregate failure message. -/
theorem claim_C7_isolated_success (B : Backend) (t1 t2 t3 fg_img : Img) (o s : String) :
    ((process_image B ⟨some t1, some t2, some t3, some fg_img⟩ o s).ok = true ↔
      ((create_multiplied_image B (create_bordered_image B fg_img).2
          t1 DEST_COORDINATES false).isSome ∨
       (create_multiplied_image B (create_bordered_image B fg_img).2
          t2 DEST_COORDINATES2 true).isSome ∨
       (create_multiplied_image B (create_bordered_image B fg_img).2
          t3 DEST_COORDINATES3 false).isSome)) ∧
    ((⟨o, "show.png"⟩ : FPath) ∈
        (process_image B ⟨some t1, some t2, some t3, some fg_img⟩ o s).outputs ↔
      (create_multiplied_image B (create_bordered_image B fg_img).2
        t1 DEST_COORDINATES false).isSome) ∧
    ((⟨o, "show2.png"⟩ : FPath) ∈
        (process_image B ⟨some t1, some t2, some t3, some fg_img⟩ o s).outputs ↔
      (create_multiplied_image B (create_bordered_image B fg_img).2
        t2 DEST_COORDINATES2 true).isSome) ∧
    ((⟨o, "show3.png"⟩ : FPath) ∈
        (process_image B ⟨some t1, some t2, some t3, some fg_img⟩ o s).outputs ↔
      (create_multiplied_image B (create_bordered_image B fg_img).2
        t3 DEST_COORDINATES3 false).isSome) ∧
    ((process_image B ⟨some t1, some t2, some t3, some fg_img⟩ o s).error =
      if (create_multiplied_image B (create_bordered_image B fg_img).2
            t1 DEST_COORDINATES false).isSome ∨
         (create_multiplied_image B (create_bordered_image B fg_img).2
            t2 DEST_COORDINATES2 true).isSome ∨
         (create_multiplied_image B (create_bordered_image B fg_img).2
            t3 DEST_COORDINATES3 false).isSome
       then "" else "Failed to create any output images") := by
  rcases h1 : create_multiplied_image B (create_bordered_image B fg_img).2
      t1 DEST_COORDINATES false with _ | v1 <;>
    rcases h2 : create_multiplied_image B (create_bordered_image B fg_img).2
        t2 DEST_COORDINATES2 true with _ | v2 <;>
      rcases h3 : create_multiplied_image B (create_bordered_image B fg_img).2
          t3 DEST_COORDINATES3 false with _ | v3 <;>
        simp [process_image, h1, h2, h3]

/-- C8: whenever at least one of the three template files is missing,
the run fails before loading the input image (the result does not
depend on the input slot at all), writes and deletes nothing, returns
no outputs, and the error message names the path of the first missing
template. -/
theorem claim_C8_missing_template (B : Backend) (env : RunEnv) (o s : String)
    (hmiss : env.template1 = none ∨ env.template2 = none ∨ env.template3 = none) :
    (process_image B env o s).ok = false ∧
    (process_image B env o s).outputs = [] ∧
    (process_image B env o s).writes = [] ∧
    (process_image B env o s).deletes = [] ∧
    (∀ inp, process_image B ⟨env.template1, env.template2, env.template3, inp⟩ o s =
      process_image B env o s) ∧
    (process_image B env o s).error = "Missing template file: " ++
      (if env.template1.isNone then pathJoin s "show.png"
       else if env.template2.isNone then pathJoin s "show2.jpg"
       else pathJoin s "show3.png") := by
  obtain ⟨t1, t2, t3, inp⟩ := env
  rcases t1 with _ | t1 <;> rcases t2 with _ | t2 <;> rcases t3 with _ | t3 <;>
    simp_all [process_image]

/-- Witness for C8: template 1 missing in a concrete environment. -/
theorem claim_C8_missing_template_witness :
    (process_image trivialBackend ⟨none, some testBase, some testBase, some testImgA⟩
        "o" "s").ok = false ∧
    (process_image trivialBackend ⟨none, some testBase, some testBase, some testImgA⟩
        "o" "s").writes = [] ∧
    (process_image trivialBackend ⟨none, some testBase, some testBase, some testImgA⟩
        "o" "s").error = "Missing template file: " ++ pathJoin "s" "show.png" := by
  have h := claim_C8_missing_template trivialBackend
    ⟨none, some testBase, some testBase, some testImgA⟩ "o" "s" (Or.inl rfl)
  exact ⟨h.1, h.2.2.1, by simpa using h.2.2.2.2.2⟩

/-! ### Template writes (claim C9) -/

/-- The system for the real `show.png` destination corners over the
full-size `1071 × 1500` source rectangle has a trivial kernel, so the
first template composite always succeeds. -/
theorem dest1_trivial_ker :
    ∀ v, (sysMatrix (identCorners 1071 1500) DEST_COORDINATES).mulVec v = 0 → v = 0 := by
  intro v hv
  have e0 : v 2 = 0 := by
    have h := congrFun hv 0
    rw [sysMatrix_mulVec] at h
    simp only [identCorners, DEST_COORDINATES, vec8_val0, vec8_val1, vec8_val2, vec8_val3,
      vec8_val4, vec8_val5, vec8_val6, vec8_val7, Pi.zero_apply] at h
    linear_combination h
  have e1 : v 5 = 0 := by
    have h := congrFun hv 1
    rw [sysMatrix_mulVec] at h
    simp only [identCorners, DEST_COORDINATES, vec8_val0, vec8_val1, vec8_val2, vec8_val3,
      vec8_val4, vec8_val5, vec8_val6, vec8_val7, Pi.zero_apply] at h
    linear_combination h
  have e2 : 1071 * v 0 + v 2 - 696150 * v 6 = 0 := by
    have h := congrFun hv 2
    rw [sysMatrix_mulVec] at h
    simp only [identCorners, DEST_COORDINATES, vec8_val0, vec8_val1, vec8_val2, vec8_val3,
      vec8_val4, vec8_val5, vec8_val6, vec8_val7, Pi.zero_apply] at h
    linear_combination h
  have e3 : 1071 * v 3 + v 5 + 342720 * v 6 = 0 := by
    have h := congrFun hv 3
    rw [sysMatrix_mulVec] at h
    simp only [identCorners, DEST_COORDINATES, vec8_val0, vec8_val1, vec8_val2, vec8_val3,
      vec8_val4, vec8_val5, vec8_val6, vec8_val7, Pi.zero_apply] at h
    linear_combination h
  have e4 : 1071 * v 0 + 1500 * v 1 + v 2 - 717570 * v 6 - 1005000 * v 7 = 0 := by
    have h := congrFun hv 4
    rw [sysMatrix_mulVec] at h
    simp only [identCorners, DEST_COORDINATES, vec8_val0, vec8_val1, vec8_val2, vec8_val3,
      vec8_val4, vec8_val5, vec8_val6, vec8_val7, Pi.zero_apply] at h
    linear_combination h
  have e5 : 1071 * v 3 + 1500 * v 4 + v 5 - 1044225 * v 6 - 1462500 * v 7 = 0 := by
    have h := congrFun hv 5
    rw [sysMatrix_mulVec] at h
    simp only [identCorners, DEST_COORDINATES, vec8_val0, vec8_val1, vec8_val2, vec8_val3,
      vec8_val4, vec8_val5, vec8_val6, vec8_val7, Pi.zero_apply] at h
    linear_combination h
  have e6 : 1500 * v 1 + v 2 + 555000 * v 7 = 0 := by
    have h := congrFun hv 6
    rw [sysMatrix_mulVec] at h
    simp only [identCorners, DEST_COORDINATES, vec8_val0, vec8_val1, vec8_val2, vec8_val3,
      vec8_val4, vec8_val5, vec8_val6, vec8_val7, Pi.zero_apply] at h
    linear_combination h
  have e7 : 1500 * v 4 + v 5 - 1477500 * v 7 = 0 := by
    have h := congrFun hv 7
    rw [sysMatrix_mulVec] at h
    simp only [identCorners, DEST_COORDINATES, vec8_val0, vec8_val1, vec8_val2, vec8_val3,
      vec8_val4, vec8_val5, vec8_val6, vec8_val7, Pi.zero_apply] at h
    linear_combination h
  have hv7 : v 7 = 0 := by linarith
  have hv6 : v 6 = 0 := by linarith
  have hv0 : v 0 = 0 := by linarith
  have hv1 : v 1 = 0 := by linarith
  have hv3 : v 3 = 0 := by linarith
  have hv4 : v 4 = 0 := by linarith
  funext k
  fin_cases k <;> simp only [Pi.zero_apply] <;> assumption

/-- The solver therefore succeeds on the real `show.png` corner table
whenever the source is the full-size `1071 × 1500` rectangle. -/
theorem dest1_solve_isSome (B : Backend) (fg_img : Img) :
    find_perspective_coeffs (imgCorners (resizeFg B fg_img false)) DEST_COORDINATES =
      some (((sysMatrix (identCorners 1071 1500) DEST_COORDINATES).det)⁻¹ •
        (sysMatrix (identCorners 1071 1500) DEST_COORDINATES).cramer DEST_COORDINATES) := by
  rw [imgCorners_resizeFg_false]
  unfold find_perspective_coeffs npLinalgSolve
  rw [if_neg (det_ne_zero_of_trivial_ker dest1_trivial_ker)]

/-- In the all-present environment the first composite succeeds, so the
run writes the file `output_folder/show.png`. -/
theorem show_write_mem (o s : String) :
    (⟨o, "show.png"⟩ : FPath) ∈ (process_image trivialBackend envAll o s).writes := by
  have h1 : create_multiplied_image trivialBackend
      (create_bordered_image trivialBackend testImgA).2 testBase DEST_COORDINATES false =
      some (apply_multiply_blend testBase
        (paste (newImg testBase.w testBase.h whiteColor)
          (trivialBackend.warp
            (resizeFg trivialBackend (create_bordered_image trivialBackend testImgA).2 false)
            (((sysMatrix (identCorners 1071 1500) DEST_COORDINATES).det)⁻¹ •
              (sysMatrix (identCorners 1071 1500) DEST_COORDINATES).cramer DEST_COORDINATES)
            testBase.w testBase.h) 0 0)) :=
    create_multiplied_image_eq_of_transform
      (apply_perspective_transform_eq_of_solve
        (dest1_solve_isSome trivialBackend (create_bordered_image trivialBackend testImgA).2))
  rcases h2 : create_multiplied_image trivialBackend
      (create_bordered_image trivialBackend testImgA).2 testBase DEST_COORDINATES2 true
      with _ | v2 <;>
    rcases h3 : create_multiplied_image trivialBackend
        (create_bordered_image trivialBackend testImgA).2 testBase DEST_COORDINATES3 false
        with _ | v3 <;>
      simp [process_image, envAll, h1, h2, h3]

/-- C9 counterexample: in a run whose output folder coincides with the
script directory (which happens whenever the input image sits in the
script directory), the successful first composite writes the file
`script_dir/show.png`, which is exactly the path of template 1: the
template file is overwritten, not left untouched. -/
theorem claim_C9_counterexample :
    (⟨"dir", "show.png"⟩ : FPath) ∈ templatePaths "dir" ∧
    (⟨"dir", "show.png"⟩ : FPath) ∈
      (process_image trivialBackend envAll "dir" "dir").writes :=
  ⟨by simp [templatePaths], show_write_mem "dir" "dir"⟩

/-- Every path `process_image` writes lies in the output folder. -/
theorem process_image_writes_dir (B : Backend) (env : RunEnv) (o s : String) :
    ∀ p ∈ (process_image B env o s).writes, p.dir = o := by
  obtain ⟨t1, t2, t3, inp⟩ := env
  rcases t1 with _ | t1 <;> rcases t2 with _ | t2 <;> rcases t3 with _ | t3 <;>
    rcases inp with _ | fg_img <;>
    first
    | (rcases h1 : create_multiplied_image B (create_bordered_image B fg_img).2
          t1 DEST_COORDINATES false with _ | v1 <;>
        rcases h2 : create_multiplied_image B (create_bordered_image B fg_img).2
            t2 DEST_COORDINATES2 true with _ | v2 <;>
          rcases h3 : create_multiplied_image B (create_bordered_image B fg_img).2
              t3 DEST_COORDINATES3 false with _ | v3 <;>
            (intro p hp
             simp [process_image, h1, h2, h3] at hp
             first
             | (rcases hp with rfl | rfl | rfl | rfl | rfl <;> rfl)
             | (rcases hp with rfl | rfl | rfl | rfl <;> rfl)
             | (rcases hp with rfl | rfl | rfl <;> rfl)
             | (rcases hp with rfl | rfl <;> rfl)))
    | (intro p hp; simp [process_image] at hp)

/-- C9 amended: provided the output folder differs from the script
directory, the three template files are only ever read, never written:
no written path is a template path.  (As the counterexample shows, the
unamended claim fails when the two directories coincide.) -/
theorem claim_C9_templates_never_written (B : Backend) (env : RunEnv) (o s : String)
    (hne : o ≠ s) :
    ∀ p ∈ (process_image B env o s).writes, p ∉ templatePaths s := by
  intro p hp hmem
  have hdir := process_image_writes_dir B env o s p hp
  have hdir2 : p.dir = s := by
    simp only [templatePaths, List.mem_cons, List.not_mem_nil, or_false] at hmem
    rcases hmem with rfl | rfl | rfl <;> rfl
  exact hne (hdir.symm.trans hdir2)

/-- Witness for the amended C9: with distinct directories, the written
path `a/show.png` is not a template path. -/
theorem claim_C9_templates_never_written_witness :
    (⟨"a", "show.png"⟩ : FPath) ∉ templatePaths "b" :=
  claim_C9_templates_never_written trivialBackend envAll "a" "b"
    (by decide) ⟨"a", "show.png"⟩ (show_write_mem "a" "b")
